import Mathlib

/-!
Verification of the build/watch lifecycle engine of `pdf-made-easy`
(`src/index.js`), as a shallow embedding.

Modelling conventions:
* JavaScript argument values are modelled by `JSValue` (enough of the
  `typeof` universe to express the type guards of the source).
* Deserialized data values are modelled by `DataValue`, again with a
  faithful `typeof`.
* Thrown errors are `Err` (a `TypeError` or a plain `Error`, each with its
  message string); fallible operations return `Except Err _`.
* Asynchronous effectful code is embedded as pure functions from an
  environment `Env` (the filesystem and the external engines: YAML/JSON5
  parsers, the template renderer, the PDF export engine) to a result paired
  with a trace of observable effects (`List Effect`).
* The `node:path` POSIX functions used by the source (`normalize`, `join`,
  `isAbsolute`, `extname`, `dirname`) are embedded at the character-list
  level, following Node's documented segment semantics.
-/

/-- A JavaScript value, as far as the source's `typeof` guards observe it. -/
inductive JSValue where
  | str (s : String)
  | num (n : Int)
  | boolean (b : Bool)
  | jsNull
  | undef
  | obj
deriving DecidableEq, Repr

/-- JavaScript `typeof` on `JSValue`. -/
def jsTypeof : JSValue → String
  | .str _ => "string"
  | .num _ => "number"
  | .boolean _ => "boolean"
  | .jsNull => "object"
  | .undef => "undefined"
  | .obj => "object"

/-- A structured value produced by deserializing a data file
(`YAML.parse` / `JSON5.parse`). -/
inductive DataValue where
  | str (s : String)
  | num (n : Int)
  | boolean (b : Bool)
  | jsNull
  | undef
  | arr
  | objV
deriving DecidableEq, Repr

/-- JavaScript `typeof` on a deserialized data value.  Note that arrays and
`null` have `typeof` `"object"`. -/
def jsTypeofD : DataValue → String
  | .str _ => "string"
  | .num _ => "number"
  | .boolean _ => "boolean"
  | .jsNull => "object"
  | .undef => "undefined"
  | .arr => "object"
  | .objV => "object"

/-- A thrown JavaScript error: either a `TypeError` (the source's
invalid-argument errors) or a plain `Error`, with its message. -/
inductive Err where
  | typeError (msg : String)
  | plain (msg : String)
deriving DecidableEq, Repr

/-- The `message` property of a thrown error. -/
def Err.message : Err → String
  | .typeError m => m
  | .plain m => m

/-- Observable effects of the embedded code. -/
inductive Effect where
  | launchBrowser
  | newPage
  | gotoPage (url : String)
  | exportPDF
  | closeBrowser
  | mkdir (dir : String)
  | readFile (path : String)
  | writeFile (path : String) (contents : String)
  | subscribe
  | unsubscribe
  | buildCall
deriving DecidableEq, Repr

/-! ## `node:path` (POSIX) at the character level -/

/-- Split a character list on `'/'` (like `String.prototype.split("/")`:
empty segments are kept). -/
def splitSlash : List Char → List (List Char)
  | [] => [[]]
  | c :: cs =>
    if c = '/' then [] :: splitSlash cs
    else
      match splitSlash cs with
      | [] => [[c]]
      | s :: ss => (c :: s) :: ss

/-- Join segments with `'/'` (like `Array.prototype.join("/")`). -/
def joinSegs : List (List Char) → List Char
  | [] => []
  | [s] => s
  | s :: ss => s ++ '/' :: joinSegs ss

/-- The `".."` segment. -/
def ddot : List Char := ['.', '.']

/-- One step of Node's `normalizeString` loop: process one path segment
against the accumulated resolved segments.  Empty and `"."` segments are
skipped; `".."` pops the last resolved segment unless it is itself `".."`,
and is kept only for relative paths (`allowAboveRoot`). -/
def normStep (allowAboveRoot : Bool) (res : List (List Char)) (seg : List Char) :
    List (List Char) :=
  if seg = [] ∨ seg = ['.'] then res
  else if seg = ddot then
    if res ≠ [] ∧ res.getLast? ≠ some ddot then res.dropLast
    else if allowAboveRoot then res ++ [seg]
    else res
  else res ++ [seg]

/-- Node's `normalizeString`: resolve `"."` and `".."` segments. -/
def normSegs (allowAboveRoot : Bool) (l : List (List Char)) : List (List Char) :=
  l.foldl (normStep allowAboveRoot) []

/-- Segment lists in the image of `normSegs`: no empty or `"."` or
slash-holding segments, and `".."` segments only as a leading run, which is
empty for absolute paths (`allowAboveRoot = false`). -/
def CleanSegs (allowAboveRoot : Bool) (out : List (List Char)) : Prop :=
  (∀ s ∈ out, s ≠ [] ∧ s ≠ ['.'] ∧ '/' ∉ s) ∧
  ∃ k rest, out = List.replicate k ddot ++ rest ∧ (∀ s ∈ rest, s ≠ ddot) ∧
    (allowAboveRoot = false → k = 0)

/-- Node's `path.posix.normalize` on character lists. -/
def normalizeChars (p : List Char) : List Char :=
  if p = [] then ['.']
  else
    let isAbs : Bool := p.head? = some '/'
    let trail : Bool := p.getLast? = some '/'
    let body := joinSegs (normSegs (!isAbs) (splitSlash p))
    if body = [] then
      if isAbs then ['/'] else if trail then ['.', '/'] else ['.']
    else
      let body2 := if trail then body ++ ['/'] else body
      if isAbs then '/' :: body2 else body2

/-- `path.posix.normalize`. -/
def pathNormalize (p : String) : String := ⟨normalizeChars p.data⟩

/-- `path.posix.isAbsolute`: nonempty and starting with `'/'`. -/
def isAbsolute (p : String) : Bool := p.data.head? = some '/'

/-- `path.posix.join` restricted to the two arguments the source passes:
concatenate the nonempty parts with `'/'` and normalize; `"."` if both are
empty. -/
def pathJoin (a b : String) : String :=
  if a = "" ∧ b = "" then "."
  else if a = "" then pathNormalize b
  else if b = "" then pathNormalize a
  else pathNormalize ⟨a.data ++ '/' :: b.data⟩

/-- `path.posix.extname` on character lists: the extension of the basename
(the part from its last dot), empty when the basename has no dot, starts
with its only dot, or is `".."`. -/
def extnameChars (p : List Char) : List Char :=
  let rb := (p.reverse.dropWhile (fun c => c = '/')).takeWhile (fun c => c ≠ '/')
  let pre := rb.takeWhile (fun c => c ≠ '.')
  if pre.length = rb.length then []
  else if pre.length = rb.length - 1 then []
  else if rb.reverse = ddot then []
  else '.' :: pre.reverse

/-- `path.posix.extname`. -/
def extnameStr (p : String) : String := ⟨extnameChars p.data⟩

/-- `path.posix.dirname` on character lists. -/
def dirnameChars (p : List Char) : List Char :=
  if p = [] then ['.']
  else
    let hasRoot : Bool := p.head? = some '/'
    let r2 := (p.reverse.dropWhile (fun c => c = '/')).dropWhile (fun c => c ≠ '/')
    if r2.length ≤ 1 then (if hasRoot then ['/'] else ['.'])
    else if hasRoot ∧ r2.length = 2 then ['/', '/']
    else r2.reverse.dropLast

/-- `path.posix.dirname`. -/
def dirnameStr (p : String) : String := ⟨dirnameChars p.data⟩

/-- `absolutizePath(path, rootDir = process.cwd())` from `src/index.js`:
`cwd` is the process working directory, substituted for `rootDir` exactly
when `rootDir` is `undefined` (a JavaScript default parameter fires only
on `undefined`); then type-check both arguments and normalize an absolute
`path` or join a relative one onto `rootDir`. -/
def absolutizePath (cwd : String) (path rootDir : JSValue) : Except Err String :=
  let rootDir := if rootDir = JSValue.undef then JSValue.str cwd else rootDir
  match path with
  | .str p =>
    match rootDir with
    | .str r =>
      .ok (if isAbsolute p then pathNormalize p else pathJoin r p)
    | v =>
      .error (.typeError
        ("\x27rootDir\x27 must be a string, given \x27" ++ jsTypeof v ++ "\x27"))
  | v =>
    .error (.typeError
      ("\x27path\x27 must be a string, given \x27" ++ jsTypeof v ++ "\x27"))

/-! ## URI encoding (`encodeURIComponent` / `decodeURIComponent`) -/

/-- Characters `encodeURIComponent` leaves unescaped: ASCII alphanumerics
and `- _ . ! ~ * ( )` and the apostrophe (code 39). -/
def isUriUnreserved (c : Char) : Bool :=
  (65 ≤ c.toNat ∧ c.toNat ≤ 90) ∨ (97 ≤ c.toNat ∧ c.toNat ≤ 122) ∨
  (48 ≤ c.toNat ∧ c.toNat ≤ 57) ∨
  c.toNat = 45 ∨ c.toNat = 95 ∨ c.toNat = 46 ∨ c.toNat = 33 ∨
  c.toNat = 126 ∨ c.toNat = 42 ∨ c.toNat = 39 ∨ c.toNat = 40 ∨ c.toNat = 41

/-- Uppercase hex digit for `n < 16`. -/
def hexDigit (n : Nat) : Char :=
  if n < 10 then Char.ofNat (48 + n) else Char.ofNat (55 + n)

/-- Hex digit value of a character (`0-9`, `A-F`, `a-f`). -/
def hexVal (c : Char) : Option Nat :=
  if 48 ≤ c.toNat ∧ c.toNat ≤ 57 then some (c.toNat - 48)
  else if 65 ≤ c.toNat ∧ c.toNat ≤ 70 then some (c.toNat - 55)
  else if 97 ≤ c.toNat ∧ c.toNat ≤ 102 then some (c.toNat - 87)
  else none

/-- `%XX` escape of one byte. -/
def percentByte (b : Nat) : List Char := ['%', hexDigit (b / 16), hexDigit (b % 16)]

/-- UTF-8 bytes of a Unicode scalar value. -/
def utf8Bytes (n : Nat) : List Nat :=
  if n < 128 then [n]
  else if n < 2048 then [192 + n / 64, 128 + n % 64]
  else if n < 65536 then [224 + n / 4096, 128 + (n / 64) % 64, 128 + n % 64]
  else [240 + n / 262144, 128 + (n / 4096) % 64, 128 + (n / 64) % 64, 128 + n % 64]

/-- Encoding of one character by `encodeURIComponent`. -/
def encodeChar (c : Char) : List Char :=
  if isUriUnreserved c then [c]
  else (utf8Bytes c.toNat).flatMap percentByte

/-- `encodeURIComponent` on character lists. -/
def encodeURIComponentChars (s : List Char) : List Char := s.flatMap encodeChar

/-- `encodeURIComponent`. -/
def encodeURIComponentStr (s : String) : String := ⟨encodeURIComponentChars s.data⟩

/-- A lexical token of a percent-encoded string: a literal character or an
escaped byte. -/
inductive UriToken where
  | lit (c : Char)
  | byte (b : Nat)
deriving DecidableEq, Repr

/-- Tokenize a percent-encoded string: each `%XX` becomes a byte, every
other character is a literal. -/
def uriTokens : List Char → Option (List UriToken)
  | [] => some []
  | c :: rest =>
    if c = '%' then
      match rest with
      | h1 :: h2 :: rest2 =>
        match hexVal h1, hexVal h2 with
        | some a, some b => (uriTokens rest2).map (fun ts => .byte (16 * a + b) :: ts)
        | _, _ => none
      | _ => none
    else (uriTokens rest).map (fun ts => .lit c :: ts)

/-- Decode the continuation byte of a 2-byte UTF-8 sequence with lead
byte `b`, rejecting overlong encodings. -/
def decode2 (b : Nat) (ts : List UriToken) : Option (Nat × List UriToken) :=
  match ts with
  | .byte b2 :: ts2 =>
    if 128 ≤ b2 ∧ b2 < 192 then
      if 128 ≤ (b - 192) * 64 + (b2 - 128) then
        some ((b - 192) * 64 + (b2 - 128), ts2)
      else none
    else none
  | _ => none

/-- Decode the two continuation bytes of a 3-byte UTF-8 sequence with lead
byte `b`, rejecting overlong and surrogate encodings. -/
def decode3 (b : Nat) (ts : List UriToken) : Option (Nat × List UriToken) :=
  match ts with
  | .byte b2 :: .byte b3 :: ts2 =>
    if (128 ≤ b2 ∧ b2 < 192) ∧ (128 ≤ b3 ∧ b3 < 192) then
      if 2048 ≤ (b - 224) * 4096 + (b2 - 128) * 64 + (b3 - 128) ∧
          ¬(55296 ≤ (b - 224) * 4096 + (b2 - 128) * 64 + (b3 - 128) ∧
            (b - 224) * 4096 + (b2 - 128) * 64 + (b3 - 128) < 57344) then
        some ((b - 224) * 4096 + (b2 - 128) * 64 + (b3 - 128), ts2)
      else none
    else none
  | _ => none

/-- Decode the three continuation bytes of a 4-byte UTF-8 sequence with
lead byte `b`, rejecting overlong and out-of-range encodings. -/
def decode4 (b : Nat) (ts : List UriToken) : Option (Nat × List UriToken) :=
  match ts with
  | .byte b2 :: .byte b3 :: .byte b4 :: ts2 =>
    if (128 ≤ b2 ∧ b2 < 192) ∧ (128 ≤ b3 ∧ b3 < 192) ∧ (128 ≤ b4 ∧ b4 < 192) then
      if 65536 ≤ (b - 240) * 262144 + (b2 - 128) * 4096 + (b3 - 128) * 64 +
            (b4 - 128) ∧
          (b - 240) * 262144 + (b2 - 128) * 4096 + (b3 - 128) * 64 +
            (b4 - 128) < 1114112 then
        some ((b - 240) * 262144 + (b2 - 128) * 4096 + (b3 - 128) * 64 +
          (b4 - 128), ts2)
      else none
    else none
  | _ => none

/-- Reassemble characters from tokens: literals pass through, escaped bytes
are UTF-8 decoded (continuation bytes must follow lead bytes; overlong,
surrogate and out-of-range encodings are rejected, as ECMA-262 requires). -/
def uriFromTokens (l : List UriToken) : Option (List Char) :=
  match l with
  | [] => some []
  | .lit c :: ts => (uriFromTokens ts).map (c :: ·)
  | .byte b :: ts =>
    if b < 128 then (uriFromTokens ts).map (Char.ofNat b :: ·)
    else if b < 192 then none
    else if b < 224 then
      match h2 : decode2 b ts with
      | some (n, ts2) => (uriFromTokens ts2).map (Char.ofNat n :: ·)
      | none => none
    else if b < 240 then
      match h3 : decode3 b ts with
      | some (n, ts2) => (uriFromTokens ts2).map (Char.ofNat n :: ·)
      | none => none
    else if b < 248 then
      match h4 : decode4 b ts with
      | some (n, ts2) => (uriFromTokens ts2).map (Char.ofNat n :: ·)
      | none => none
    else none
termination_by l.length
decreasing_by
  · simp
  · simp
  · unfold decode2 at h2
    split at h2
    · split at h2
      · split at h2
        · injection h2 with h
          injection h with hA hB
          subst hB
          simp only [List.length_cons]
          omega
        · cases h2
      · cases h2
    · cases h2
  · unfold decode3 at h3
    split at h3
    · split at h3
      · split at h3
        · injection h3 with h
          injection h with hA hB
          subst hB
          simp only [List.length_cons]
          omega
        · cases h3
      · cases h3
    · cases h3
  · unfold decode4 at h4
    split at h4
    · split at h4
      · split at h4
        · injection h4 with h
          injection h with hA hB
          subst hB
          simp only [List.length_cons]
          omega
        · cases h4
      · cases h4
    · cases h4

/-- `decodeURIComponent`: `none` models a thrown `URIError`. -/
def decodeURIComponentStr (s : String) : Option String :=
  ((uriTokens s.data).bind uriFromTokens).map (⟨·⟩)

/-- `encodeHTML(html)` from `src/index.js` (string case): prefix the
URI-encoded markup with `data:text/html,`. -/
def encodeHTML (html : String) : String :=
  "data:text/html," ++ encodeURIComponentStr html

/-! ## The environment: filesystem and external engines -/

/-- The external world of one run: the filesystem snapshot and the external
engines (the YAML/JSON5 parsers, the template renderer in use — the default
Liquid one or a custom one from `options.getTemplateRenderer` — and the PDF
export engine).  All are out of scope per the spec and treated as oracles. -/
structure Env where
  /-- `process.cwd()`, the working directory `absolutizePath` defaults to. -/
  cwd : String
  /-- `pathExists p` (used for files and directories alike). -/
  fsExists : String → Bool
  /-- `fs.readFile(p, "utf-8")` for an existing path. -/
  fsRead : String → String
  /-- `YAML.parse`; an `error` is the thrown parse error's message. -/
  yamlParse : String → Except String DataValue
  /-- `JSON5.parse`. -/
  json5Parse : String → Except String DataValue
  /-- The template render function `(templateSource, data) => markup`. -/
  render : String → DataValue → Except String String
  /-- Navigating the page to a URL and exporting it as PDF bytes. -/
  pdfExport : String → Except String String

/-! ## `getPDFRenderer` -/

/-- State of the object returned by `getPDFRenderer`. -/
structure PDFRendererState where
  isClosed : Bool
deriving DecidableEq, Repr

/-- Initial PDF renderer state (after `puppeteer.launch()` and
`browser.newPage()`). -/
def getPDFRendererInit : PDFRendererState := ⟨false⟩

/-- Effects of constructing the PDF renderer. -/
def getPDFRendererEffects : List Effect := [.launchBrowser, .newPage]

/-- `render(url, options)` of the PDF renderer: empty buffer if closed,
otherwise navigate the page to `url` and export the PDF. -/
def PDFRenderer.render (env : Env) (s : PDFRendererState) (url : String) :
    Except Err String × List Effect :=
  if s.isClosed then (.ok "", [])
  else
    match env.pdfExport url with
    | .ok bytes => (.ok bytes, [.gotoPage url, .exportPDF])
    | .error m => (.error (.plain m), [.gotoPage url, .exportPDF])

/-- `close()` of the PDF renderer: no-op if closed, else close the browser
and flip the flag. -/
def PDFRenderer.close (s : PDFRendererState) : PDFRendererState × List Effect :=
  if s.isClosed then (s, [])
  else (⟨true⟩, [.closeBrowser])

/-! ## `getData`, `parseData`, `renderHTML` -/

/-- `parseData(data, type)` from `src/index.js` (the `type` argument is the
string literal the source passes). -/
def parseData (env : Env) (data : JSValue) (ty : String) : Except Err DataValue :=
  match data with
  | .str d =>
    if ty = "yaml" ∨ ty = "json" then
      if ty = "yaml" then (env.yamlParse d).mapError Err.plain
      else (env.json5Parse d).mapError Err.plain
    else
      .error (.plain
        ("\x27type\x27 must either be \x27yaml\x27 or \x27json\x27, given \x27" ++ ty ++ "\x27"))
  | v =>
    .error (.typeError
      ("\x27data\x27 must be a string, given \x27" ++ jsTypeof v ++ "\x27"))

/-- `getData(path)` from `src/index.js`: type-check, existence-check, read
the file, then dispatch on the extension whitelist.  Note there is no
validation of the parsed value's shape here. -/
def getData (env : Env) (path : JSValue) : Except Err DataValue × List Effect :=
  match path with
  | .str p =>
    if env.fsExists p then
      let ext := extnameStr p
      let contents := env.fsRead p
      if ext = ".yml" ∨ ext = ".yaml" then
        (parseData env (.str contents) "yaml", [.readFile p])
      else if ext = ".json" ∨ ext = ".jsonc" ∨ ext = ".json5" then
        (parseData env (.str contents) "json", [.readFile p])
      else
        (.error (.plain
          ("Only YAML, JSON, JSONC, and JSON5 formats are accepted, given " ++ ext)),
         [.readFile p])
    else
      (.error (.plain ("Data file \x27" ++ p ++ "\x27 does not exist")), [])
  | v =>
    (.error (.typeError
      ("\x27path\x27 must be a string, given \x27" ++ jsTypeof v ++ "\x27")), [])

/-- `renderHTML(path, render, data)` from `src/index.js`: type-check the
path, existence-check the template file, validate the data shape (`typeof`
must be `"object"` or `"undefined"`, and not `null`), then read the
template and render it.  (The source's `typeof render === "function"` guard
is vacuous here since `render` is a function by type.) -/
def renderHTML (env : Env) (path : JSValue)
    (render : String → DataValue → Except String String) (data : DataValue) :
    Except Err String × List Effect :=
  match path with
  | .str p =>
    if env.fsExists p then
      if jsTypeofD data ≠ "object" ∧ jsTypeofD data ≠ "undefined" then
        (.error (.typeError
          ("\x27data\x27 must be an object or undefined, given \x27" ++ jsTypeofD data ++ "\x27")),
         [])
      else if data = .jsNull then
        (.error (.typeError
          "\x27data\x27 must be an object or undefined, given \x27null\x27"), [])
      else
        match render (env.fsRead p) data with
        | .ok html => (.ok html, [.readFile p])
        | .error m => (.error (.plain m), [.readFile p])
    else
      (.error (.plain ("Template file \x27" ++ p ++ "\x27 does not exist")), [])
  | v =>
    (.error (.typeError
      ("\x27path\x27 must be a string, given \x27" ++ jsTypeof v ++ "\x27")), [])

/-! ## `getBuilder` -/

/-- Arguments of one `build()`/`develop()` call (the `options` bag is
carried by `Env` as the engines in use). -/
structure BuildArgs where
  data : JSValue
  template : JSValue
  output : JSValue
deriving DecidableEq, Repr

/-- State of the object returned by `getBuilder`: its `isClosed` flag and
its owned PDF renderer. -/
structure BuilderState where
  isClosed : Bool
  renderer : PDFRendererState
deriving DecidableEq, Repr

/-- Initial Builder state. -/
def getBuilderInit : BuilderState := ⟨false, getPDFRendererInit⟩

/-- Effects of `getBuilder()` (constructing the PDF renderer). -/
def getBuilderEffects : List Effect := getPDFRendererEffects

/-- `build({data, template, output, options}, rootDir)` from `src/index.js`,
in the source's exact evaluation order: closed-flag check; `rootDir` type
and existence checks; resolve the template path; (construct the template
renderer); resolve the data path and load the data; `renderHTML` (template
existence check, data-shape validation, template read, markup render);
resolve the output path; ensure the output directory; render the PDF bytes;
write the output file. -/
def Builder.build (env : Env) (s : BuilderState) (args : BuildArgs)
    (rootDir : JSValue) : Except Err Unit × List Effect :=
  if s.isClosed then (.ok (), [])
  else
    match rootDir with
    | .str root =>
      if env.fsExists root then
        match absolutizePath env.cwd args.template (.str root) with
        | .error e => (.error e, [])
        | .ok tmplPath =>
          match absolutizePath env.cwd args.data (.str root) with
          | .error e => (.error e, [])
          | .ok dataPath =>
            match getData env (.str dataPath) with
            | (.error e, eff1) => (.error e, eff1)
            | (.ok data, eff1) =>
              match renderHTML env (.str tmplPath) env.render data with
              | (.error e, eff2) => (.error e, eff1 ++ eff2)
              | (.ok html, eff2) =>
                match absolutizePath env.cwd args.output (.str root) with
                | .error e => (.error e, eff1 ++ eff2)
                | .ok outputFile =>
                  let outputDir := dirnameStr outputFile
                  let mkEff := if env.fsExists outputDir then [] else [Effect.mkdir outputDir]
                  match PDFRenderer.render env s.renderer (encodeHTML html) with
                  | (.error e, eff3) => (.error e, eff1 ++ eff2 ++ mkEff ++ eff3)
                  | (.ok bytes, eff3) =>
                    (.ok (), eff1 ++ eff2 ++ mkEff ++ eff3 ++ [.writeFile outputFile bytes])
      else
        (.error (.plain ("Root directory \x27" ++ root ++ "\x27 does not exist")), [])
    | v =>
      (.error (.typeError
        ("\x27rootDir\x27 must be a string, given \x27" ++ jsTypeof v ++ "\x27")), [])

/-- `close()` of the Builder: no-op if closed, else close the PDF renderer
and flip the flag. -/
def Builder.close (s : BuilderState) : BuilderState × List Effect :=
  if s.isClosed then (s, [])
  else (⟨true, (PDFRenderer.close s.renderer).1⟩, (PDFRenderer.close s.renderer).2)

/-! ## `build` (one-shot) and `develop` (watch mode) -/

/-- The exported one-shot `build(args, rootDir)`: construct a Builder, run
one build, and close the Builder in a `finally`.  Errors propagate — nothing
is swallowed here. -/
def buildOnce (env : Env) (args : BuildArgs) (rootDir : JSValue) :
    Except Err Unit × List Effect :=
  let r := Builder.build env getBuilderInit args rootDir
  let c := Builder.close getBuilderInit
  (r.1, getBuilderEffects ++ r.2 ++ c.2)

/-- The error messages the watch rebuild path disregards
(`errorsToDisregard` in `src/index.js`). -/
def errorsToDisregard : List String :=
  ["\x27data\x27 must be an object or undefined, given \x27null\x27",
   "JSON5: invalid end of input at 1:1"]

/-- A filesystem event as delivered by `@parcel/watcher`. -/
inductive WatchEventType where
  | create
  | update
  | delete
deriving DecidableEq, Repr

/-- One watcher event: a path and what happened to it. -/
structure WatchEvent where
  path : String
  type : WatchEventType
deriving DecidableEq, Repr

/-- The watch session returned by a successful `develop()` setup: the two
watched absolute paths and the (open) Builder. -/
structure DevSession where
  pathsToWatch : List String
  builder : BuilderState
deriving DecidableEq, Repr

/-- The event callback `develop` passes to `watcher.subscribe`, for a batch
delivered with a null watcher error: find the first event on a watched
path; rebuild only if it is an `update`; swallow rebuild errors whose
message is in `errorsToDisregard`, re-throw every other error (the callback
has no `catch` that unsubscribes or closes). -/
def watchHandler (env : Env) (pathsToWatch : List String) (s : BuilderState)
    (args : BuildArgs) (rootDir : JSValue) (events : List WatchEvent) :
    Except Err Unit × List Effect :=
  match events.find? (fun ev => pathsToWatch.contains ev.path) with
  | none => (.ok (), [])
  | some m =>
    if m.type = .update then
      match Builder.build env s args rootDir with
      | (.ok _, eff) => (.ok (), .buildCall :: eff)
      | (.error e, eff) =>
        if e.message ∈ errorsToDisregard then (.ok (), .buildCall :: eff)
        else (.error e, .buildCall :: eff)
    else
      (.ok (), [])

/-- `develop(args, rootDir)` from `src/index.js`, up to the point where the
subscription is installed: resolve and existence-check the two watched
paths, construct a Builder, run the eager first build, subscribe.  On a
setup error the `catch` unwinds (here: closes the Builder if it was
constructed) and re-throws. -/
def develop (env : Env) (args : BuildArgs) (rootDir : JSValue) :
    Except Err DevSession × List Effect :=
  match absolutizePath env.cwd args.data rootDir with
  | .error e => (.error e, [])
  | .ok dataAbs =>
    match absolutizePath env.cwd args.template rootDir with
    | .error e => (.error e, [])
    | .ok tmplAbs =>
      if env.fsExists dataAbs = false then
        (.error (.plain ("\x27" ++ dataAbs ++ "\x27 does not exist.")), [])
      else if env.fsExists tmplAbs = false then
        (.error (.plain ("\x27" ++ tmplAbs ++ "\x27 does not exist.")), [])
      else
        match Builder.build env getBuilderInit args rootDir with
        | (.error e, eff) =>
          let c := Builder.close getBuilderInit
          (.error e, getBuilderEffects ++ eff ++ c.2)
        | (.ok _, eff) =>
          (.ok ⟨[dataAbs, tmplAbs], getBuilderInit⟩,
           getBuilderEffects ++ eff ++ [.subscribe])

/-! ## Concrete environments for counterexamples and witnesses -/

/-- An environment where only the root directory `/r` exists (both the data
and the template file are missing). -/
def envMissingData : Env where
  cwd := "/cwd"
  fsExists := fun p => p = "/r"
  fsRead := fun _ => ""
  yamlParse := fun _ => .ok .objV
  json5Parse := fun _ => .ok .objV
  render := fun _ _ => .ok ""
  pdfExport := fun _ => .ok ""

/-- An environment where `/r/data.yml` exists and deserializes to the
scalar string `"hello"`, and `/r/template.liquid` exists. -/
def envScalarYaml : Env where
  cwd := "/cwd"
  fsExists := fun p => p = "/r" ∨ p = "/r/data.yml" ∨ p = "/r/template.liquid"
  fsRead := fun _ => "hello"
  yamlParse := fun s => .ok (.str s)
  json5Parse := fun _ => .error "JSON5: invalid end of input at 1:1"
  render := fun _ _ => .ok "html"
  pdfExport := fun _ => .ok "bytes"

/-- An environment whose data file deserializes to an explicit `null`, so
that `build()` fails downstream with the first transient message of
`errorsToDisregard`. -/
def envNullYaml : Env where
  cwd := "/cwd"
  fsExists := fun p => p = "/r" ∨ p = "/r/data.yml" ∨ p = "/r/template.liquid"
  fsRead := fun _ => ""
  yamlParse := fun _ => .ok .jsNull
  json5Parse := fun _ => .ok .jsNull
  render := fun _ _ => .ok "html"
  pdfExport := fun _ => .ok "bytes"

/-- The standard arguments used by the concrete scenarios. -/
def argsStd : BuildArgs := ⟨.str "data.yml", .str "template.liquid", .str "output.pdf"⟩

/-- Effects that the inner steps of `build()` (data load, template render,
directory creation, PDF render) can emit — no file write, no teardown, no
browser launch, no build call. -/
def innerEff : Effect → Bool
  | .readFile _ => true
  | .mkdir _ => true
  | .gotoPage _ => true
  | .exportPDF => true
  | _ => false

/-- The token list contributed by one character of an
`encodeURIComponent`-encoded string: a literal for an unreserved character,
the UTF-8 bytes otherwise. -/
def charTokens (c : Char) : List UriToken :=
  if isUriUnreserved c then [.lit c] else (utf8Bytes c.toNat).map .byte

/-! # Theorems -/


/-! ## Effect-trace helper lemmas -/

theorem getData_effects_inner (env : Env) (path : JSValue) :
    ((getData env path).2).all innerEff = true := by
  unfold getData
  split
  · split
    · dsimp only
      split
      · rfl
      · split <;> rfl
    · rfl
  · rfl

theorem renderHTML_effects_inner (env : Env) (path : JSValue)
    (render : String → DataValue → Except String String) (data : DataValue) :
    ((renderHTML env path render data).2).all innerEff = true := by
  unfold renderHTML
  split
  · split
    · split
      · rfl
      · split
        · rfl
        · split <;> rfl
    · rfl
  · rfl

theorem pdfRender_effects_inner (env : Env) (s : PDFRendererState) (url : String) :
    ((PDFRenderer.render env s url).2).all innerEff = true := by
  unfold PDFRenderer.render
  split
  · rfl
  · split <;> rfl

/-- Structure of a `build()` effect trace: a prefix of inner effects,
followed by the final file write exactly when the build succeeded on an
open Builder. -/
theorem build_effects_split (env : Env) (s : BuilderState) (args : BuildArgs)
    (rootDir : JSValue) :
    ∃ pre w, (Builder.build env s args rootDir).2 = pre ++ w ∧
      pre.all innerEff = true ∧
      (w = [] ∨ ∃ p c, w = [Effect.writeFile p c]) ∧
      ((Builder.build env s args rootDir).1 = .ok () ∧ s.isClosed = false →
        ∃ p c, w = [Effect.writeFile p c]) ∧
      (∀ e, (Builder.build env s args rootDir).1 = .error e → w = []) := by
  by_cases hc : s.isClosed = true
  · refine ⟨[], [], by simp [Builder.build, hc], rfl, .inl rfl, ?_, ?_⟩
    · rintro ⟨-, h⟩; rw [hc] at h; cases h
    · intro e he; rfl
  · have hg := fun p => getData_effects_inner env (JSValue.str p)
    have hr := fun p d => renderHTML_effects_inner env (JSValue.str p) env.render d
    have hp := fun u => pdfRender_effects_inner env s.renderer u
    unfold Builder.build
    rw [if_neg hc]
    split
    · split
      · split
        · exact ⟨[], [], rfl, rfl, .inl rfl, fun h => absurd h.1 (by simp), fun e he => rfl⟩
        · split
          · exact ⟨[], [], rfl, rfl, .inl rfl, fun h => absurd h.1 (by simp), fun e he => rfl⟩
          · split
            · rename_i er eff1 heq
              have hgeff := congrArg Prod.snd heq
              simp only at hgeff
              refine ⟨eff1, [], (List.append_nil _).symm, ?_,
                .inl rfl, fun h => absurd h.1 (by simp), fun e he => rfl⟩
              rw [← hgeff]; exact hg _
            · rename_i data eff1 heq
              have hgeff := congrArg Prod.snd heq
              simp only at hgeff
              split
              · rename_i er2 eff2 heq2
                have hreff := congrArg Prod.snd heq2
                simp only at hreff
                refine ⟨eff1 ++ eff2, [], (List.append_nil _).symm, ?_,
                  .inl rfl, fun h => absurd h.1 (by simp), fun e he => rfl⟩
                rw [List.all_append, ← hgeff, ← hreff, hg _, hr _ _]; rfl
              · rename_i html eff2 heq2
                have hreff := congrArg Prod.snd heq2
                simp only at hreff
                split
                · refine ⟨eff1 ++ eff2, [], (List.append_nil _).symm, ?_,
                    .inl rfl, fun h => absurd h.1 (by simp), fun e he => rfl⟩
                  rw [List.all_append, ← hgeff, ← hreff, hg _, hr _ _]; rfl
                · rename_i outF heqOut
                  have hmk : (if env.fsExists (dirnameStr outF) = true then []
                      else [Effect.mkdir (dirnameStr outF)]).all innerEff = true := by
                    split <;> rfl
                  split
                  · rename_i er3 eff3 heq3
                    have hpeff := congrArg Prod.snd heq3
                    simp only at hpeff
                    refine ⟨_, [], (List.append_nil _).symm, ?_,
                      .inl rfl, fun h => absurd h.1 (by simp), fun e he => rfl⟩
                    rw [List.all_append, List.all_append, List.all_append,
                      ← hgeff, ← hreff, ← hpeff, hg _, hr _ _, hp _, hmk]
                    rfl
                  · rename_i bytes eff3 heq3
                    have hpeff := congrArg Prod.snd heq3
                    simp only at hpeff
                    refine ⟨_, [Effect.writeFile outF bytes], rfl, ?_,
                      .inr ⟨_, _, rfl⟩, fun _ => ⟨_, _, rfl⟩, fun e he => by cases he⟩
                    rw [List.all_append, List.all_append, List.all_append,
                      ← hgeff, ← hreff, ← hpeff, hg _, hr _ _, hp _, hmk]
                    rfl
      · exact ⟨[], [], rfl, rfl, .inl rfl, fun h => absurd h.1 (by simp), fun e he => rfl⟩
    · exact ⟨[], [], rfl, rfl, .inl rfl, fun h => absurd h.1 (by simp), fun e he => rfl⟩

/-- No `build()` trace contains an unsubscribe, a browser close, or a
build call. -/
theorem build_effects_no_teardown (env : Env) (s : BuilderState) (args : BuildArgs)
    (rootDir : JSValue) :
    Effect.unsubscribe ∉ (Builder.build env s args rootDir).2 ∧
    Effect.closeBrowser ∉ (Builder.build env s args rootDir).2 ∧
    Effect.buildCall ∉ (Builder.build env s args rootDir).2 := by
  obtain ⟨pre, w, heq, hpre, hw, -, -⟩ := build_effects_split env s args rootDir
  rw [heq]
  refine ⟨?_, ?_, ?_⟩ <;>
  · intro hmem
    rcases List.mem_append.mp hmem with hmem | hmem
    · have := List.all_eq_true.mp hpre _ hmem
      simp [innerEff] at this
    · rcases hw with rfl | ⟨p, c, rfl⟩
      · cases hmem
      · rcases List.mem_singleton.mp hmem with h
        cases h

theorem Builder.close_of_closed (t : BuilderState) (h : t.isClosed = true) :
    Builder.close t = (t, []) := by
  unfold Builder.close; rw [if_pos h]

theorem Builder.build_of_closed (env : Env) (t : BuilderState) (args : BuildArgs)
    (rootDir : JSValue) (h : t.isClosed = true) :
    Builder.build env t args rootDir = (.ok (), []) := by
  unfold Builder.build; rw [if_pos h]

theorem builderClose_isClosed (s : BuilderState) :
    (Builder.close s).1.isClosed = true := by
  unfold Builder.close
  split
  · rename_i hcl; exact hcl
  · rfl

theorem pdfRendererClose_isClosed (s : PDFRendererState) :
    (PDFRenderer.close s).1.isClosed = true := by
  unfold PDFRenderer.close
  split
  · rename_i hcl; exact hcl
  · rfl

/-! ## C1 -/

/-- C1: For every Builder returned by `getBuilder()` (initial state
`getBuilderInit`, and in fact any Builder state), a second `close()` after
a first one produces no error, no effects and no state change, and a
`build()` after `close()` is a silent no-op: it returns successfully and
emits no effects (no file write, no rendering). -/
theorem close_idempotent_build_after_close_noop (env : Env) (s : BuilderState)
    (args : BuildArgs) (rootDir : JSValue) :
    Builder.close (Builder.close s).1 = ((Builder.close s).1, []) ∧
    Builder.build env (Builder.close s).1 args rootDir = (.ok (), []) :=
  ⟨Builder.close_of_closed _ (builderClose_isClosed s),
   Builder.build_of_closed env _ args rootDir (builderClose_isClosed s)⟩

/-! ## C8 -/

/-- C8: For the PDF renderer returned by `getPDFRenderer()`, a `render`
call after `close()` returns an empty byte buffer and emits no effects —
in particular no page navigation and no document export — instead of
raising an error. -/
theorem pdfRenderer_render_after_close (env : Env) (s : PDFRendererState)
    (url : String) :
    PDFRenderer.render env (PDFRenderer.close s).1 url = (.ok "", []) := by
  unfold PDFRenderer.render
  rw [if_pos (pdfRendererClose_isClosed s)]

/-! ## C9 -/

/-- C9: `Builder.build` checks the closed flag before any argument
validation: on a closed Builder it returns silently with no effects for
every `rootDir` value, including non-strings and names of non-existent
directories — no `InvalidArgument` (TypeError) or other error is ever
raised after close. -/
theorem build_closed_before_validation (env : Env) (s : BuilderState)
    (args : BuildArgs) (rootDir : JSValue) (h : s.isClosed = true) :
    Builder.build env s args rootDir = (.ok (), []) :=
  Builder.build_of_closed env s args rootDir h

/-- C9 witness: a closed Builder ignores a numeric (non-string) `rootDir`
in an environment where not even the root directory exists. -/
theorem build_closed_before_validation_witness :
    Builder.build envMissingData ⟨true, ⟨true⟩⟩ argsStd (.num 0) = (.ok (), []) :=
  build_closed_before_validation envMissingData ⟨true, ⟨true⟩⟩ argsStd (.num 0) rfl

/-! ## C2 -/

/-- C2 counterexample: during a watch-mode rebuild on a qualifying event,
a `build()` failure outside the transient set (here the data file is
missing) is re-thrown by the handler, and the trace shows no teardown:
no unsubscribe and no browser close ever happen, contradicting the claim
that the session is torn down (subscription unsubscribed, Builder closed). -/
theorem watch_no_teardown_counterexample :
    watchHandler envMissingData ["/r/data.yml", "/r/template.liquid"]
      getBuilderInit argsStd (.str "/r") [⟨"/r/data.yml", .update⟩] =
      (.error (.plain "Data file \x27/r/data.yml\x27 does not exist"),
       [.buildCall]) ∧
    Effect.unsubscribe ∉
      (watchHandler envMissingData ["/r/data.yml", "/r/template.liquid"]
        getBuilderInit argsStd (.str "/r") [⟨"/r/data.yml", .update⟩]).2 ∧
    Effect.closeBrowser ∉
      (watchHandler envMissingData ["/r/data.yml", "/r/template.liquid"]
        getBuilderInit argsStd (.str "/r") [⟨"/r/data.yml", .update⟩]).2 := by
  refine ⟨rfl, ?_, ?_⟩ <;> decide

/-- C2 (amended): on a qualifying watch event, a rebuild error whose
message is in `errorsToDisregard` is swallowed and the session continues;
every other rebuild error is re-thrown out of the handler with no
unsubscribe and no Builder close (the teardown the original claim asserts
does not happen); and the one-shot `build()` never swallows any error,
transient-set messages included. -/
theorem watch_error_containment :
    (∀ (env : Env) (pts : List String) (s : BuilderState) (args : BuildArgs)
       (rootDir : JSValue) (events : List WatchEvent) (m : WatchEvent)
       (e : Err) (eff : List Effect),
      events.find? (fun ev => pts.contains ev.path) = some m →
      m.type = .update →
      Builder.build env s args rootDir = (.error e, eff) →
      e.message ∈ errorsToDisregard →
      watchHandler env pts s args rootDir events = (.ok (), .buildCall :: eff)) ∧
    (∀ (env : Env) (pts : List String) (s : BuilderState) (args : BuildArgs)
       (rootDir : JSValue) (events : List WatchEvent) (m : WatchEvent)
       (e : Err) (eff : List Effect),
      events.find? (fun ev => pts.contains ev.path) = some m →
      m.type = .update →
      Builder.build env s args rootDir = (.error e, eff) →
      e.message ∉ errorsToDisregard →
      watchHandler env pts s args rootDir events = (.error e, .buildCall :: eff) ∧
      Effect.unsubscribe ∉ (watchHandler env pts s args rootDir events).2 ∧
      Effect.closeBrowser ∉ (watchHandler env pts s args rootDir events).2) ∧
    (∀ (env : Env) (args : BuildArgs) (rootDir : JSValue) (e : Err)
       (eff : List Effect),
      Builder.build env getBuilderInit args rootDir = (.error e, eff) →
      (buildOnce env args rootDir).1 = .error e) := by
  have hmain : ∀ (env : Env) (pts : List String) (s : BuilderState)
      (args : BuildArgs) (rootDir : JSValue) (events : List WatchEvent)
      (m : WatchEvent) (e : Err) (eff : List Effect),
      events.find? (fun ev => pts.contains ev.path) = some m →
      m.type = .update →
      Builder.build env s args rootDir = (.error e, eff) →
      watchHandler env pts s args rootDir events =
        (if e.message ∈ errorsToDisregard then (.ok (), .buildCall :: eff)
         else (.error e, .buildCall :: eff)) := by
    intro env pts s args rootDir events m e eff hfind htype hbuild
    unfold watchHandler
    rw [hfind]
    dsimp only
    rw [if_pos htype, hbuild]
  refine ⟨?_, ?_, ?_⟩
  · intro env pts s args rootDir events m e eff hfind htype hbuild hmem
    rw [hmain env pts s args rootDir events m e eff hfind htype hbuild, if_pos hmem]
  · intro env pts s args rootDir events m e eff hfind htype hbuild hmem
    have heq := hmain env pts s args rootDir events m e eff hfind htype hbuild
    rw [if_neg hmem] at heq
    have heff : (Builder.build env s args rootDir).2 = eff := by rw [hbuild]
    obtain ⟨h1, h2, -⟩ := build_effects_no_teardown env s args rootDir
    rw [heff] at h1 h2
    refine ⟨heq, ?_, ?_⟩ <;> rw [heq]
    · intro hmem2
      rcases List.mem_cons.mp hmem2 with h | h
      · cases h
      · exact h1 h
    · intro hmem2
      rcases List.mem_cons.mp hmem2 with h | h
      · cases h
      · exact h2 h
  · intro env args rootDir e eff hbuild
    show (Builder.build env getBuilderInit args rootDir).1 = .error e
    rw [hbuild]

/-- C2 witness: the transient `null`-data message is swallowed by the
watch handler; the missing-data-file error is re-thrown without teardown;
and the one-shot `build()` propagates the missing-data-file error. -/
theorem watch_error_containment_witness :
    watchHandler envNullYaml ["/r/data.yml", "/r/template.liquid"]
      getBuilderInit argsStd (.str "/r") [⟨"/r/data.yml", .update⟩] =
      (.ok (), [.buildCall, .readFile "/r/data.yml"]) ∧
    watchHandler envMissingData ["/r/data.yml", "/r/template.liquid"]
      getBuilderInit argsStd (.str "/r") [⟨"/r/data.yml", .update⟩] =
      (.error (.plain "Data file \x27/r/data.yml\x27 does not exist"),
       [.buildCall]) ∧
    (buildOnce envMissingData argsStd (.str "/r")).1 =
      .error (.plain "Data file \x27/r/data.yml\x27 does not exist") :=
  ⟨watch_error_containment.1 envNullYaml ["/r/data.yml", "/r/template.liquid"]
      getBuilderInit argsStd (.str "/r") [⟨"/r/data.yml", .update⟩]
      ⟨"/r/data.yml", .update⟩
      (.typeError "\x27data\x27 must be an object or undefined, given \x27null\x27")
      [.readFile "/r/data.yml"] rfl rfl rfl (by decide),
   (watch_error_containment.2.1 envMissingData ["/r/data.yml", "/r/template.liquid"]
      getBuilderInit argsStd (.str "/r") [⟨"/r/data.yml", .update⟩]
      ⟨"/r/data.yml", .update⟩
      (.plain "Data file \x27/r/data.yml\x27 does not exist")
      [] rfl rfl rfl (by decide)).1,
   watch_error_containment.2.2 envMissingData argsStd (.str "/r")
      (.plain "Data file \x27/r/data.yml\x27 does not exist") [] rfl⟩

/-! ## C3 -/

/-- C3 counterexample: a batch holding a `create` event followed by an
`update` event for the same watched path produces zero rebuild calls, not
the one the claim requires: `events.find` returns the `create` event,
whose type is not `update`, so the handler returns without building. -/
theorem rebuild_create_then_update_counterexample :
    watchHandler envScalarYaml ["/r/data.yml", "/r/template.liquid"]
      getBuilderInit argsStd (.str "/r")
      [⟨"/r/data.yml", .create⟩, ⟨"/r/data.yml", .update⟩] = (.ok (), []) ∧
    ((watchHandler envScalarYaml ["/r/data.yml", "/r/template.liquid"]
      getBuilderInit argsStd (.str "/r")
      [⟨"/r/data.yml", .create⟩, ⟨"/r/data.yml", .update⟩]).2).count
        Effect.buildCall = 0 :=
  ⟨rfl, rfl⟩

/-- C3 (amended): a rebuild is invoked exactly when the *first* event in
the batch whose path equals a watched path has type `update` (then exactly
one rebuild happens); if that first matching event has another type, or no
event matches — in particular when every event concerns an unwatched
path — zero rebuilds happen and the handler does nothing. -/
theorem rebuild_iff_first_match_update :
    (∀ (env : Env) (pts : List String) (s : BuilderState) (args : BuildArgs)
       (rootDir : JSValue) (events : List WatchEvent) (m : WatchEvent),
      events.find? (fun ev => pts.contains ev.path) = some m →
      m.type = .update →
      ((watchHandler env pts s args rootDir events).2).count Effect.buildCall = 1) ∧
    (∀ (env : Env) (pts : List String) (s : BuilderState) (args : BuildArgs)
       (rootDir : JSValue) (events : List WatchEvent) (m : WatchEvent),
      events.find? (fun ev => pts.contains ev.path) = some m →
      m.type ≠ .update →
      watchHandler env pts s args rootDir events = (.ok (), [])) ∧
    (∀ (env : Env) (pts : List String) (s : BuilderState) (args : BuildArgs)
       (rootDir : JSValue) (events : List WatchEvent),
      events.find? (fun ev => pts.contains ev.path) = none →
      watchHandler env pts s args rootDir events = (.ok (), [])) ∧
    (∀ (env : Env) (pts : List String) (s : BuilderState) (args : BuildArgs)
       (rootDir : JSValue) (events : List WatchEvent),
      (∀ ev ∈ events, ev.path ∉ pts) →
      watchHandler env pts s args rootDir events = (.ok (), [])) := by
  have hnone : ∀ (env : Env) (pts : List String) (s : BuilderState)
      (args : BuildArgs) (rootDir : JSValue) (events : List WatchEvent),
      events.find? (fun ev => pts.contains ev.path) = none →
      watchHandler env pts s args rootDir events = (.ok (), []) := by
    intro env pts s args rootDir events hfind
    unfold watchHandler
    rw [hfind]
  refine ⟨?_, ?_, hnone, ?_⟩
  · intro env pts s args rootDir events m hfind htype
    have hbc : Effect.buildCall ∉ (Builder.build env s args rootDir).2 :=
      (build_effects_no_teardown env s args rootDir).2.2
    unfold watchHandler
    rw [hfind]
    dsimp only
    rw [if_pos htype]
    rcases hb : Builder.build env s args rootDir with ⟨r, eff⟩
    have heff : eff.count Effect.buildCall = 0 :=
      List.count_eq_zero.mpr (by rw [hb] at hbc; exact hbc)
    rcases r with e | u
    · dsimp only
      split
      · simp [List.count_cons, heff]
      · simp [List.count_cons, heff]
    · simp [List.count_cons, heff]
  · intro env pts s args rootDir events m hfind htype
    unfold watchHandler
    rw [hfind]
    dsimp only
    rw [if_neg htype]
  · intro env pts s args rootDir events hall
    refine hnone env pts s args rootDir events (List.find?_eq_none.mpr ?_)
    intro ev hev
    simpa using fun hcont => hall ev hev (by simpa using hcont)

/-- C3 witness: a lone `update` event on a watched path yields exactly one
rebuild; a lone `create` event yields none; a batch about an unwatched
path yields none. -/
theorem rebuild_iff_first_match_update_witness :
    ((watchHandler envScalarYaml ["/r/data.yml", "/r/template.liquid"]
      getBuilderInit argsStd (.str "/r")
      [⟨"/r/data.yml", .update⟩]).2).count Effect.buildCall = 1 ∧
    watchHandler envScalarYaml ["/r/data.yml", "/r/template.liquid"]
      getBuilderInit argsStd (.str "/r")
      [⟨"/r/data.yml", .create⟩] = (.ok (), []) ∧
    watchHandler envScalarYaml ["/r/data.yml", "/r/template.liquid"]
      getBuilderInit argsStd (.str "/r")
      [⟨"/other.txt", .update⟩] = (.ok (), []) :=
  ⟨rebuild_iff_first_match_update.1 envScalarYaml
      ["/r/data.yml", "/r/template.liquid"] getBuilderInit argsStd (.str "/r")
      [⟨"/r/data.yml", .update⟩] ⟨"/r/data.yml", .update⟩ rfl rfl,
   rebuild_iff_first_match_update.2.1 envScalarYaml
      ["/r/data.yml", "/r/template.liquid"] getBuilderInit argsStd (.str "/r")
      [⟨"/r/data.yml", .create⟩] ⟨"/r/data.yml", .create⟩ rfl (by decide),
   rebuild_iff_first_match_update.2.2.2 envScalarYaml
      ["/r/data.yml", "/r/template.liquid"] getBuilderInit argsStd (.str "/r")
      [⟨"/other.txt", .update⟩] (by decide)⟩

/-! ## C5 -/

/-- C5: If the resolved data path or the resolved template path does not
exist, `develop` fails with the watch-target-missing error (the message
names a missing watched path) before any rendering resource is allocated:
the effect trace is empty, so neither the Builder nor the browser process
was constructed. -/
theorem develop_missing_watch_target (env : Env) (args : BuildArgs)
    (rootDir : JSValue) (dataAbs tmplAbs : String)
    (h1 : absolutizePath env.cwd args.data rootDir = .ok dataAbs)
    (h2 : absolutizePath env.cwd args.template rootDir = .ok tmplAbs)
    (h3 : env.fsExists dataAbs = false ∨ env.fsExists tmplAbs = false) :
    (∃ p, (p = dataAbs ∨ p = tmplAbs) ∧
      develop env args rootDir =
        (.error (.plain ("\x27" ++ p ++ "\x27 does not exist.")), [])) ∧
    Effect.launchBrowser ∉ (develop env args rootDir).2 ∧
    Effect.newPage ∉ (develop env args rootDir).2 := by
  have hdev : develop env args rootDir =
      (if env.fsExists dataAbs = false then
        (.error (.plain ("\x27" ++ dataAbs ++ "\x27 does not exist.")), [])
       else if env.fsExists tmplAbs = false then
        (.error (.plain ("\x27" ++ tmplAbs ++ "\x27 does not exist.")), [])
       else
        match Builder.build env getBuilderInit args rootDir with
        | (.error e, eff) =>
          (.error e, getBuilderEffects ++ eff ++ (Builder.close getBuilderInit).2)
        | (.ok _, eff) =>
          (.ok ⟨[dataAbs, tmplAbs], getBuilderInit⟩,
           getBuilderEffects ++ eff ++ [.subscribe])) := by
    unfold develop
    rw [h1, h2]
  by_cases hd : env.fsExists dataAbs = false
  · rw [hdev, if_pos hd]
    exact ⟨⟨dataAbs, .inl rfl, rfl⟩, by simp, by simp⟩
  · have ht : env.fsExists tmplAbs = false := h3.resolve_left hd
    rw [hdev, if_neg hd, if_pos ht]
    exact ⟨⟨tmplAbs, .inr rfl, rfl⟩, by simp, by simp⟩

/-- C5 witness: with nothing on disk but the root directory, `develop`
fails with the missing-path error for the data path and allocates
nothing. -/
theorem develop_missing_watch_target_witness :
    (∃ p, (p = "/r/data.yml" ∨ p = "/r/template.liquid") ∧
      develop envMissingData argsStd (.str "/r") =
        (.error (.plain ("\x27" ++ p ++ "\x27 does not exist.")), [])) ∧
    Effect.launchBrowser ∉ (develop envMissingData argsStd (.str "/r")).2 ∧
    Effect.newPage ∉ (develop envMissingData argsStd (.str "/r")).2 :=
  develop_missing_watch_target envMissingData argsStd (.str "/r")
    "/r/data.yml" "/r/template.liquid" rfl rfl (.inl rfl)

/-! ## C4 -/

/-- C4 counterexample: `getData` on a `.yml` file whose content
deserializes to the scalar `"hello"` does *not* fail with
`InvalidDataShape` — it succeeds and returns the scalar unchanged. -/
theorem getData_scalar_counterexample :
    getData envScalarYaml (.str "/r/data.yml") =
      (.ok (.str "hello"), [.readFile "/r/data.yml"]) :=
  rfl

/-- C4 (amended): `getData` performs no shape validation and returns
whatever the deserializer produced (scalars included); the
`InvalidDataShape` check lives in `renderHTML`, which rejects values whose
`typeof` is neither `"object"` nor `"undefined"` (scalars) and explicit
`null`, but accepts arrays (their `typeof` is `"object"`). -/
theorem data_shape_validated_in_renderHTML :
    (∀ (env : Env) (p : String) (d : DataValue),
      env.fsExists p = true → extnameStr p = ".yml" →
      env.yamlParse (env.fsRead p) = .ok d →
      getData env (.str p) = (.ok d, [.readFile p])) ∧
    (∀ (env : Env) (p : String)
       (render : String → DataValue → Except String String) (d : DataValue),
      env.fsExists p = true →
      jsTypeofD d ≠ "object" → jsTypeofD d ≠ "undefined" →
      renderHTML env (.str p) render d =
        (.error (.typeError
          ("\x27data\x27 must be an object or undefined, given \x27" ++ jsTypeofD d ++ "\x27")),
         [])) ∧
    (∀ (env : Env) (p : String)
       (render : String → DataValue → Except String String),
      env.fsExists p = true →
      renderHTML env (.str p) render .jsNull =
        (.error (.typeError
          "\x27data\x27 must be an object or undefined, given \x27null\x27"), [])) ∧
    (∀ (env : Env) (p : String)
       (render : String → DataValue → Except String String) (html : String),
      env.fsExists p = true →
      render (env.fsRead p) .arr = .ok html →
      renderHTML env (.str p) render .arr = (.ok html, [.readFile p])) := by
  refine ⟨?_, ?_, ?_, ?_⟩
  · intro env p d hex hext hparse
    unfold getData
    dsimp only
    rw [if_pos hex, if_pos (by rw [hext]; exact .inl rfl)]
    have hpd : parseData env (.str (env.fsRead p)) "yaml" =
        (env.yamlParse (env.fsRead p)).mapError Err.plain := rfl
    rw [hpd, hparse]
    rfl
  · intro env p render d hex ht1 ht2
    unfold renderHTML
    dsimp only
    rw [if_pos hex, if_pos ⟨ht1, ht2⟩]
  · intro env p render hex
    unfold renderHTML
    dsimp only
    rw [if_pos hex, if_neg (by simp [jsTypeofD]), if_pos rfl]
  · intro env p render html hex hrender
    unfold renderHTML
    dsimp only
    rw [if_pos hex, if_neg (by simp [jsTypeofD]),
      if_neg (by simp), hrender]

/-- C4 witness: the scalar `.yml` file loads without error; `renderHTML`
rejects the scalar and `null` with the `InvalidDataShape` messages and
accepts an array. -/
theorem data_shape_validated_in_renderHTML_witness :
    getData envScalarYaml (.str "/r/data.yml") =
      (.ok (.str "hello"), [.readFile "/r/data.yml"]) ∧
    renderHTML envScalarYaml (.str "/r/template.liquid")
        envScalarYaml.render (.str "hello") =
      (.error (.typeError
        "\x27data\x27 must be an object or undefined, given \x27string\x27"), []) ∧
    renderHTML envScalarYaml (.str "/r/template.liquid")
        envScalarYaml.render .jsNull =
      (.error (.typeError
        "\x27data\x27 must be an object or undefined, given \x27null\x27"), []) ∧
    renderHTML envScalarYaml (.str "/r/template.liquid")
        envScalarYaml.render .arr =
      (.ok "html", [.readFile "/r/template.liquid"]) :=
  ⟨data_shape_validated_in_renderHTML.1 envScalarYaml "/r/data.yml"
      (.str "hello") rfl rfl rfl,
   data_shape_validated_in_renderHTML.2.1 envScalarYaml "/r/template.liquid"
      envScalarYaml.render (.str "hello") rfl (by decide) (by decide),
   data_shape_validated_in_renderHTML.2.2.1 envScalarYaml "/r/template.liquid"
      envScalarYaml.render rfl,
   data_shape_validated_in_renderHTML.2.2.2 envScalarYaml "/r/template.liquid"
      envScalarYaml.render "html" rfl rfl⟩

/-! ## C6 -/

/-- C6 counterexample: with both the data file and the template file
missing, `build()` fails with the *data*-file error, although under the
claimed step order (template read and validated before the data load) it
would have to fail with the template error: the argument evaluation of the
source loads the data before `renderHTML` ever checks the template file. -/
theorem build_order_counterexample :
    Builder.build envMissingData getBuilderInit argsStd (.str "/r") =
      (.error (.plain "Data file \x27/r/data.yml\x27 does not exist"), []) ∧
    envMissingData.fsExists "/r/template.liquid" = false :=
  ⟨rfl, rfl⟩

/-- C6 (amended): within one `build()` the steps run in the source's
sequence — rootDir checks, template path resolution, data path resolution,
data load, then template existence/read and data-shape validation inside
`renderHTML`, markup render, output path resolution, output directory
creation, document render, file write.  Any failure aborts the remaining
steps and propagates that error, and nothing is ever written on a failed
build: the write is the final step, present exactly on success.  In
particular the data load precedes the template validation: a missing data
file produces the data error regardless of the template file's state. -/
theorem build_step_sequencing :
    (∀ (env : Env) (s : BuilderState) (args : BuildArgs) (rootDir : JSValue)
       (e : Err),
      (Builder.build env s args rootDir).1 = .error e →
      ∀ p c, Effect.writeFile p c ∉ (Builder.build env s args rootDir).2) ∧
    (∀ (env : Env) (s : BuilderState) (args : BuildArgs) (rootDir : JSValue),
      s.isClosed = false →
      (Builder.build env s args rootDir).1 = .ok () →
      ∃ pre p c, (Builder.build env s args rootDir).2 = pre ++ [.writeFile p c] ∧
        ∀ q d, Effect.writeFile q d ∉ pre) ∧
    (∀ (env : Env) (s : BuilderState) (args : BuildArgs) (root : String)
       (dataPath : String),
      s.isClosed = false →
      env.fsExists root = true →
      (∃ t, absolutizePath env.cwd args.template (.str root) = .ok t) →
      absolutizePath env.cwd args.data (.str root) = .ok dataPath →
      env.fsExists dataPath = false →
      Builder.build env s args (.str root) =
        (.error (.plain ("Data file \x27" ++ dataPath ++ "\x27 does not exist")),
         [])) := by
  refine ⟨?_, ?_, ?_⟩
  · intro env s args rootDir e herr p c
    obtain ⟨pre, w, heq, hpre, -, -, hw⟩ := build_effects_split env s args rootDir
    rw [heq, hw e herr, List.append_nil]
    intro hmem
    have := List.all_eq_true.mp hpre _ hmem
    simp [innerEff] at this
  · intro env s args rootDir hopen hok
    obtain ⟨pre, w, heq, hpre, -, hw, -⟩ := build_effects_split env s args rootDir
    obtain ⟨p, c, rfl⟩ := hw ⟨hok, hopen⟩
    refine ⟨pre, p, c, heq, ?_⟩
    intro q d hmem
    have := List.all_eq_true.mp hpre _ hmem
    simp [innerEff] at this
  · intro env s args root dataPath hopen hroot htmpl hdata hmiss
    obtain ⟨t, ht⟩ := htmpl
    unfold Builder.build
    rw [if_neg (by rw [hopen]; simp)]
    dsimp only
    rw [if_pos hroot, ht]
    dsimp only
    rw [hdata]
    dsimp only
    have hget : getData env (.str dataPath) =
        (.error (.plain ("Data file \x27" ++ dataPath ++ "\x27 does not exist")), []) := by
      unfold getData
      dsimp only
      rw [if_neg (by rw [hmiss]; simp)]
    rw [hget]

/-- C6 witness: on a successful build the trace ends with the single file
write; with only the data file missing the data error propagates and
nothing is written. -/
theorem build_step_sequencing_witness :
    (∃ pre p c,
      (Builder.build envNullYaml getBuilderInit argsStd (.str "/r")).2 =
        pre ++ [.writeFile p c] ∧ ∀ q d, Effect.writeFile q d ∉ pre) ∨
    ((Builder.build envMissingData getBuilderInit argsStd (.str "/r")).1 =
        .error (.plain "Data file \x27/r/data.yml\x27 does not exist") ∧
      ∀ p c, Effect.writeFile p c ∉
        (Builder.build envMissingData getBuilderInit argsStd (.str "/r")).2) :=
  .inr ⟨rfl,
    build_step_sequencing.1 envMissingData getBuilderInit argsStd (.str "/r")
      (.plain "Data file \x27/r/data.yml\x27 does not exist") rfl⟩

/-! ## C7 helper lemmas: split and join -/

theorem splitSlash_ne_nil (cs : List Char) : splitSlash cs ≠ [] := by
  induction cs with
  | nil => simp [splitSlash]
  | cons c rest ih =>
    rw [splitSlash]
    split
    · simp
    · split <;> simp

theorem splitSlash_noSlash (cs : List Char) : ∀ s ∈ splitSlash cs, '/' ∉ s := by
  induction cs with
  | nil =>
    intro s hs
    rw [splitSlash] at hs
    rcases List.mem_singleton.mp hs with rfl
    simp
  | cons c rest ih =>
    intro s hs
    rw [splitSlash] at hs
    split at hs
    · rcases List.mem_cons.mp hs with rfl | hs
      · simp
      · exact ih s hs
    · rename_i hc
      split at hs
      · rename_i heq
        exact absurd heq (splitSlash_ne_nil rest)
      · rename_i s0 ss0 heq
        rcases List.mem_cons.mp hs with rfl | hs
        · intro hmem
          rcases List.mem_cons.mp hmem with h | h
          · exact hc h.symm
          · exact ih s0 (by rw [heq]; exact List.mem_cons_self s0 ss0) h
        · exact ih s (by rw [heq]; exact List.mem_cons_of_mem s0 hs)

theorem splitSlash_of_noSlash (s : List Char) (h : '/' ∉ s) : splitSlash s = [s] := by
  induction s with
  | nil => rfl
  | cons c rest ih =>
    rw [splitSlash,
      if_neg (fun hc => h (by rw [hc]; exact List.mem_cons_self _ _)),
      ih (fun hm => h (List.mem_cons_of_mem c hm))]

theorem splitSlash_append (s t : List Char) (h : '/' ∉ s) :
    splitSlash (s ++ '/' :: t) = s :: splitSlash t := by
  induction s with
  | nil =>
    rw [List.nil_append, splitSlash, if_pos rfl]
  | cons c rest ih =>
    rw [List.cons_append, splitSlash,
      if_neg (fun hc => h (by rw [hc]; exact List.mem_cons_self _ _)),
      ih (fun hm => h (List.mem_cons_of_mem c hm))]

theorem joinSegs_cons_of_ne_nil (a : List Char) (rest : List (List Char))
    (h : rest ≠ []) : joinSegs (a :: rest) = a ++ '/' :: joinSegs rest := by
  cases rest with
  | nil => cases h rfl
  | cons b bs => rfl

theorem splitSlash_joinSegs_append (segs : List (List Char)) (t : List Char)
    (hne : segs ≠ []) (h : ∀ s ∈ segs, '/' ∉ s) :
    splitSlash (joinSegs segs ++ '/' :: t) = segs ++ splitSlash t := by
  induction segs with
  | nil => cases hne rfl
  | cons s ss ih =>
    cases ss with
    | nil =>
      show splitSlash (s ++ '/' :: t) = [s] ++ splitSlash t
      rw [splitSlash_append s t (h s (List.mem_cons_self s [])), List.singleton_append]
    | cons s2 ss2 =>
      rw [joinSegs_cons_of_ne_nil s (s2 :: ss2) (by simp), List.append_assoc,
        List.cons_append, splitSlash_append s _ (h s (List.mem_cons_self s _)),
        ih (by simp) (fun x hx => h x (List.mem_cons_of_mem s hx)), List.cons_append]
      rfl

theorem splitSlash_joinSegs (segs : List (List Char)) (hne : segs ≠ [])
    (h : ∀ s ∈ segs, '/' ∉ s) : splitSlash (joinSegs segs) = segs := by
  induction segs with
  | nil => cases hne rfl
  | cons s ss ih =>
    cases ss with
    | nil =>
      show splitSlash (joinSegs [s]) = [s]
      exact splitSlash_of_noSlash s (h s (List.mem_cons_self s []))
    | cons s2 ss2 =>
      rw [joinSegs_cons_of_ne_nil s (s2 :: ss2) (by simp),
        splitSlash_append s _ (h s (List.mem_cons_self s _)),
        ih (by simp) (fun x hx => h x (List.mem_cons_of_mem s hx))]

theorem joinSegs_head? (s : List Char) (ss : List (List Char)) (h : s ≠ []) :
    (joinSegs (s :: ss)).head? = s.head? := by
  cases ss with
  | nil => rfl
  | cons s2 ss2 =>
    rw [joinSegs_cons_of_ne_nil s (s2 :: ss2) (by simp)]
    exact List.head?_append_of_ne_nil _ h

theorem joinSegs_concat_ne_nil (ss : List (List Char)) (s : List Char) (h : s ≠ []) :
    joinSegs (ss ++ [s]) ≠ [] := by
  cases ss with
  | nil => exact h
  | cons a ss2 =>
    rw [List.cons_append, joinSegs_cons_of_ne_nil a (ss2 ++ [s]) (by simp)]
    simp

theorem joinSegs_concat_getLast? (ss : List (List Char)) (s : List Char) (h : s ≠ []) :
    (joinSegs (ss ++ [s])).getLast? = s.getLast? := by
  induction ss with
  | nil => rfl
  | cons a ss2 ih =>
    rw [List.cons_append, joinSegs_cons_of_ne_nil a (ss2 ++ [s]) (by simp),
      List.getLast?_append_of_ne_nil _ (by simp),
      show ('/' :: joinSegs (ss2 ++ [s])) = ['/'] ++ joinSegs (ss2 ++ [s]) from rfl,
      List.getLast?_append_of_ne_nil _ (joinSegs_concat_ne_nil ss2 s h), ih]

/-! ## C7 helper lemmas: `normStep` and `normSegs` -/

theorem normStep_nil_seg (allow : Bool) (acc : List (List Char)) :
    normStep allow acc [] = acc := by
  rw [normStep, if_pos (.inl rfl)]

theorem normStep_plain (allow : Bool) (acc : List (List Char)) (seg : List Char)
    (h1 : seg ≠ []) (h2 : seg ≠ ['.']) (h3 : seg ≠ ddot) :
    normStep allow acc seg = acc ++ [seg] := by
  rw [normStep, if_neg (by rintro (h | h) <;> [exact h1 h; exact h2 h]), if_neg h3]

theorem foldl_normStep_plain (allow : Bool) (l : List (List Char))
    (h : ∀ s ∈ l, s ≠ [] ∧ s ≠ ['.'] ∧ s ≠ ddot) :
    ∀ acc, List.foldl (normStep allow) acc l = acc ++ l := by
  induction l with
  | nil => intro acc; simp
  | cons s rest ih =>
    intro acc
    obtain ⟨h1, h2, h3⟩ := h s (List.mem_cons_self s rest)
    rw [List.foldl_cons, normStep_plain allow acc s h1 h2 h3,
      ih (fun x hx => h x (List.mem_cons_of_mem s hx))]
    simp

theorem getLast?_replicate_pos (k : Nat) (d : List Char) (h : 0 < k) :
    (List.replicate k d).getLast? = some d := by
  cases k with
  | zero => omega
  | succ m => rw [List.replicate_succ' m d]; exact List.getLast?_concat _

theorem normStep_ddot_true (j : Nat) :
    normStep true (List.replicate j ddot) ddot = List.replicate (j + 1) ddot := by
  rw [normStep, if_neg (by rintro (h | h) <;> simp [ddot] at h), if_pos rfl]
  cases j with
  | zero =>
    rw [if_neg (by simp), if_pos rfl]
    rfl
  | succ n =>
    rw [if_neg ?_, if_pos rfl, List.replicate_succ' (n + 1) ddot]
    rintro ⟨-, hlast⟩
    exact hlast (getLast?_replicate_pos (n + 1) ddot (by omega))

theorem foldl_normStep_ddot (k : Nat) :
    ∀ j, List.foldl (normStep true) (List.replicate j ddot)
      (List.replicate k ddot) = List.replicate (j + k) ddot := by
  induction k with
  | zero => intro j; rfl
  | succ n ih =>
    intro j
    rw [List.replicate_succ, List.foldl_cons, normStep_ddot_true j, ih (j + 1)]
    congr 1
    omega

theorem normStep_clean (allow : Bool) (acc : List (List Char)) (seg : List Char)
    (hacc : CleanSegs allow acc) (hseg : '/' ∉ seg) :
    CleanSegs allow (normStep allow acc seg) := by
  obtain ⟨hmem, k, rest, hshape, hrest, hk⟩ := hacc
  by_cases h1 : seg = [] ∨ seg = ['.']
  · rw [normStep, if_pos h1]; exact ⟨hmem, k, rest, hshape, hrest, hk⟩
  by_cases h2 : seg = ddot
  · subst h2
    rw [normStep, if_neg h1, if_pos rfl]
    by_cases h3 : acc ≠ [] ∧ acc.getLast? ≠ some ddot
    · rw [if_pos h3]
      have hrestne : rest ≠ [] := by
        rintro rfl
        rw [List.append_nil] at hshape
        rcases Nat.eq_zero_or_pos k with rfl | hpos
        · exact h3.1 (by rw [hshape]; rfl)
        · exact h3.2 (by rw [hshape]; exact getLast?_replicate_pos k ddot hpos)
      refine ⟨?_, k, rest.dropLast, ?_, ?_, hk⟩
      · intro s hs
        exact hmem s (List.dropLast_subset acc hs)
      · rw [hshape, List.dropLast_append_of_ne_nil _ hrestne]
      · intro s hs
        exact hrest s (List.dropLast_subset rest hs)
    · rw [if_neg h3]
      cases allow with
      | false =>
        rw [if_neg (by simp)]
        exact ⟨hmem, k, rest, hshape, hrest, hk⟩
      | true =>
        rw [if_pos rfl]
        have hrestnil : rest = [] := by
          rcases not_and_or.mp h3 with h | h
          · have : acc = [] := not_not.mp h
            rw [this] at hshape
            exact (List.append_eq_nil.mp hshape.symm).2
          · have hlast : acc.getLast? = some ddot := not_not.mp h
            rcases List.eq_nil_or_concat rest with rfl | ⟨init, last, rfl⟩
            · rfl
            · exfalso
              rw [List.concat_eq_append] at hshape hrest
              refine hrest last (by simp) ?_
              have : acc.getLast? = some last := by
                rw [hshape, List.getLast?_append_of_ne_nil _ (by simp),
                  List.getLast?_concat]
              rw [this] at hlast
              exact Option.some.inj hlast
        subst hrestnil
        rw [List.append_nil] at hshape
        refine ⟨?_, k + 1, [], ?_, by simp, by simp⟩
        · intro s hs
          rcases List.mem_append.mp hs with hs | hs
          · exact hmem s hs
          · rcases List.mem_singleton.mp hs with rfl
            refine ⟨by simp [ddot], by simp [ddot], by simp [ddot]⟩
        · rw [hshape, List.append_nil, List.replicate_succ' k ddot]
  · rw [normStep, if_neg h1, if_neg h2]
    push_neg at h1
    refine ⟨?_, k, rest ++ [seg], by rw [hshape, List.append_assoc], ?_, hk⟩
    · intro s hs
      rcases List.mem_append.mp hs with hs | hs
      · exact hmem s hs
      · rcases List.mem_singleton.mp hs with rfl
        exact ⟨h1.1, h1.2, hseg⟩
    · intro s hs
      rcases List.mem_append.mp hs with hs | hs
      · exact hrest s hs
      · rcases List.mem_singleton.mp hs with rfl
        exact h2

theorem foldl_normStep_clean (allow : Bool) (l : List (List Char))
    (h : ∀ s ∈ l, '/' ∉ s) :
    ∀ acc, CleanSegs allow acc →
      CleanSegs allow (List.foldl (normStep allow) acc l) := by
  induction l with
  | nil => intro acc hacc; exact hacc
  | cons s rest ih =>
    intro acc hacc
    rw [List.foldl_cons]
    exact ih (fun x hx => h x (List.mem_cons_of_mem s hx)) _
      (normStep_clean allow acc s hacc (h s (List.mem_cons_self s rest)))

theorem normSegs_clean (allow : Bool) (l : List (List Char))
    (h : ∀ s ∈ l, '/' ∉ s) : CleanSegs allow (normSegs allow l) :=
  foldl_normStep_clean allow l h [] ⟨by simp, 0, [], rfl, by simp, fun _ => rfl⟩

theorem normSegs_fixpoint (allow : Bool) (out : List (List Char))
    (h : CleanSegs allow out) : normSegs allow out = out := by
  obtain ⟨hmem, k, rest, hshape, hrest, hk⟩ := h
  subst hshape
  rw [normSegs, List.foldl_append]
  have hplain : ∀ s ∈ rest, s ≠ [] ∧ s ≠ ['.'] ∧ s ≠ ddot := by
    intro s hs
    obtain ⟨a, b, -⟩ := hmem s (List.mem_append_right _ hs)
    exact ⟨a, b, hrest s hs⟩
  cases allow with
  | false =>
    have hk0 : k = 0 := hk rfl
    subst hk0
    simp only [List.replicate_zero, List.foldl_nil, List.nil_append]
    rw [foldl_normStep_plain false rest hplain []]
    rfl
  | true =>
    have : List.foldl (normStep true) [] (List.replicate k ddot) =
        List.replicate k ddot := by
      have := foldl_normStep_ddot k 0
      simpa using this
    rw [this, foldl_normStep_plain true rest hplain]

theorem joinSegs_ne_nil (out : List (List Char)) (hne : out ≠ [])
    (h : ∀ s ∈ out, s ≠ []) : joinSegs out ≠ [] := by
  cases out with
  | nil => cases hne rfl
  | cons s ss =>
    cases ss with
    | nil => exact h s (List.mem_cons_self s [])
    | cons s2 ss2 =>
      rw [joinSegs_cons_of_ne_nil s (s2 :: ss2) (by simp)]
      intro hcontra
      rcases List.append_eq_nil.mp hcontra with ⟨-, h2⟩
      cases h2

theorem normSegs_wrap (a : Bool) (out : List (List Char)) (pre suf : Bool)
    (hclean : CleanSegs a out) :
    normSegs a ((if pre then [[]] else []) ++
      (out ++ (if suf then [[]] else []))) = out := by
  rw [normSegs, List.foldl_append, List.foldl_append]
  have hpre : List.foldl (normStep a) [] (if pre then [[]] else []) = [] := by
    cases pre <;> simp [normStep_nil_seg]
  have hmain : List.foldl (normStep a) [] out = out := normSegs_fixpoint a out hclean
  rw [hpre, hmain]
  cases suf <;> simp [normStep_nil_seg]

theorem normSegs_cons_nilseg (a : Bool) (l : List (List Char)) :
    normSegs a ([] :: l) = normSegs a l := by
  rw [normSegs, normSegs, List.foldl_cons, normStep_nil_seg]

theorem normSegs_concat_nilseg (a : Bool) (l : List (List Char)) :
    normSegs a (l ++ [[]]) = normSegs a l := by
  rw [normSegs, normSegs, List.foldl_append, List.foldl_cons, List.foldl_nil,
    normStep_nil_seg]

theorem normalizeChars_of_clean (A T : Bool) (out : List (List Char))
    (hone : out ≠ []) (hclean : CleanSegs (!A) out) :
    normalizeChars ((if A then ['/'] else []) ++ joinSegs out ++
        (if T then ['/'] else [])) =
      (if A then ['/'] else []) ++ joinSegs out ++ (if T then ['/'] else []) := by
  have hnemem : ∀ s ∈ out, s ≠ [] := fun s hs => (hclean.1 s hs).1
  have hnoslash : ∀ s ∈ out, '/' ∉ s := fun s hs => (hclean.1 s hs).2.2
  have hbody : joinSegs out ≠ [] := joinSegs_ne_nil out hone hnemem
  have hheadJ : ¬((joinSegs out).head? = some '/') := by
    cases out with
    | nil => cases hone rfl
    | cons s ss =>
      rw [joinSegs_head? s ss (hnemem s (List.mem_cons_self s ss))]
      cases s with
      | nil => cases hnemem _ (List.mem_cons_self _ ss) rfl
      | cons c cs =>
        intro hcontra
        have hc : c = '/' := by simpa using hcontra
        exact hnoslash _ (List.mem_cons_self _ ss) (hc ▸ List.mem_cons_self c cs)
  have hlastJ : ¬((joinSegs out).getLast? = some '/') := by
    rcases List.eq_nil_or_concat out with rfl | ⟨init, lastSeg, rfl⟩
    · cases hone rfl
    · rw [List.concat_eq_append] at *
      have hlmem : lastSeg ∈ init ++ [lastSeg] :=
        List.mem_append_right _ (List.mem_singleton.mpr rfl)
      have hlne : lastSeg ≠ [] := hnemem lastSeg hlmem
      rw [joinSegs_concat_getLast? init lastSeg hlne,
        List.getLast?_eq_getLast lastSeg hlne]
      intro hcontra
      have hlv : lastSeg.getLast hlne = '/' := by simpa using hcontra
      exact hnoslash lastSeg hlmem (hlv ▸ List.getLast_mem hlne)
  have hsplitJ : splitSlash (joinSegs out) = out :=
    splitSlash_joinSegs out hone hnoslash
  have hsplitJs : splitSlash (joinSegs out ++ ['/']) = out ++ [[]] := by
    rw [show joinSegs out ++ ['/'] = joinSegs out ++ '/' :: [] from rfl,
      splitSlash_joinSegs_append out [] hone hnoslash]
    rfl
  cases A with
  | false =>
    cases T with
    | false =>
      rw [show ((if (false : Bool) then ['/'] else []) ++ joinSegs out ++
          (if (false : Bool) then ['/'] else [])) = joinSegs out ++ [] from rfl,
        List.append_nil]
      rw [normalizeChars, if_neg hbody]
      dsimp only
      rw [decide_eq_false hheadJ, decide_eq_false hlastJ, hsplitJ,
        normSegs_fixpoint _ out hclean, if_neg hbody]
      rfl
    | true =>
      show normalizeChars (joinSegs out ++ ['/']) = joinSegs out ++ ['/']
      rw [normalizeChars, if_neg (by simp)]
      dsimp only
      rw [List.head?_append_of_ne_nil _ hbody, decide_eq_false hheadJ,
        decide_eq_true (List.getLast?_concat _), hsplitJs,
        normSegs_concat_nilseg, normSegs_fixpoint _ out hclean, if_neg hbody]
      rfl
  | true =>
    cases T with
    | false =>
      rw [show ((if (true : Bool) then ['/'] else []) ++ joinSegs out ++
          (if (false : Bool) then ['/'] else [])) =
          ('/' :: joinSegs out) ++ [] from rfl,
        List.append_nil]
      rw [normalizeChars, if_neg (by simp)]
      dsimp only
      rw [show ('/' :: joinSegs out).head? = some '/' from rfl, decide_eq_true rfl,
        show ('/' :: joinSegs out) = ['/'] ++ joinSegs out from rfl,
        List.getLast?_append_of_ne_nil _ hbody, decide_eq_false hlastJ,
        show splitSlash (['/'] ++ joinSegs out) = [] :: splitSlash (joinSegs out) by
          rw [List.singleton_append, splitSlash, if_pos rfl],
        hsplitJ, normSegs_cons_nilseg, normSegs_fixpoint _ out hclean,
        if_neg hbody]
      rfl
    | true =>
      show normalizeChars ('/' :: (joinSegs out ++ ['/'])) =
        '/' :: (joinSegs out ++ ['/'])
      rw [normalizeChars, if_neg (by simp)]
      dsimp only
      rw [show ('/' :: (joinSegs out ++ ['/'])).head? = some '/' from rfl,
        decide_eq_true rfl,
        show ('/' :: (joinSegs out ++ ['/'])) = ['/'] ++ (joinSegs out ++ ['/'])
          from rfl,
        List.getLast?_append_of_ne_nil _ (by simp),
        decide_eq_true (List.getLast?_concat _),
        show splitSlash (['/'] ++ (joinSegs out ++ ['/'])) =
            [] :: splitSlash (joinSegs out ++ ['/']) by
          rw [List.singleton_append, splitSlash, if_pos rfl],
        hsplitJs, normSegs_cons_nilseg, normSegs_concat_nilseg,
        normSegs_fixpoint _ out hclean, if_neg hbody]
      rfl

theorem normalizeChars_idem (p : List Char) :
    normalizeChars (normalizeChars p) = normalizeChars p := by
  by_cases hp : p = []
  · subst hp; rfl
  · have hclean : CleanSegs (!(decide (p.head? = some '/')))
        (normSegs (!(decide (p.head? = some '/'))) (splitSlash p)) :=
      normSegs_clean _ _ (splitSlash_noSlash p)
    have hnp : normalizeChars p =
        if joinSegs (normSegs (!(decide (p.head? = some '/'))) (splitSlash p)) = []
        then (if decide (p.head? = some '/') then ['/']
              else if decide (p.getLast? = some '/') then ['.', '/'] else ['.'])
        else ((if decide (p.head? = some '/') then ['/'] else []) ++
          joinSegs (normSegs (!(decide (p.head? = some '/'))) (splitSlash p)) ++
          (if decide (p.getLast? = some '/') then ['/'] else [])) := by
      rw [normalizeChars, if_neg hp]
      dsimp only
      cases hdA : decide (p.head? = some '/') <;>
        cases hdT : decide (p.getLast? = some '/') <;>
        split <;> simp
    rw [hnp]
    by_cases hb :
        joinSegs (normSegs (!(decide (p.head? = some '/'))) (splitSlash p)) = []
    · rw [if_pos hb]
      cases hdA : decide (p.head? = some '/') <;>
        cases hdT : decide (p.getLast? = some '/') <;> rfl
    · rw [if_neg hb]
      exact normalizeChars_of_clean (decide (p.head? = some '/'))
        (decide (p.getLast? = some '/'))
        (normSegs (!(decide (p.head? = some '/'))) (splitSlash p))
        (fun h => hb (by rw [h]; rfl)) hclean

theorem pathNormalize_idem (p : String) :
    pathNormalize (pathNormalize p) = pathNormalize p :=
  congrArg String.mk (normalizeChars_idem p.data)

theorem pathJoin_normalize (r p : String) :
    pathNormalize (pathJoin r p) = pathJoin r p := by
  rw [pathJoin]
  split
  · decide
  · split
    · exact pathNormalize_idem p
    · split
      · exact pathNormalize_idem r
      · exact pathNormalize_idem _

/-! ## C7 -/

/-- C7 counterexample: `absolutizePath(p, undefined)` does not fail with
`InvalidArgument` although `undefined` is not a string — the source's
default parameter `rootDir = process.cwd()` fires and the relative path is
joined against the working directory. -/
theorem absolutizePath_undefined_counterexample :
    absolutizePath "/cwd" (.str "a") .undef = .ok "/cwd/a" ∧
    ∀ m, absolutizePath "/cwd" (.str "a") .undef ≠ .error (.typeError m) := by
  refine ⟨rfl, ?_⟩
  intro m h
  rw [show absolutizePath "/cwd" (.str "a") .undef = .ok "/cwd/a" from rfl] at h
  cases h

/-- C7 (amended): For every relative path `p` and root string `r`,
`absolutizePath(p, r)` equals `normalize(join(r, p))` (Node's `join`
already normalizes, and `normalize` is idempotent); for every absolute `p`
it equals `normalize(p)` for every root; it fails with an `InvalidArgument`
TypeError whenever `p` is not a string, or `r` is neither a string nor
`undefined`; and an `undefined` `r` triggers the `process.cwd()` default,
behaving exactly like passing the working directory. -/
theorem absolutizePath_spec :
    (∀ (cwd p r : String), isAbsolute p = false →
      absolutizePath cwd (.str p) (.str r) =
        .ok (pathNormalize (pathJoin r p))) ∧
    (∀ (cwd p r : String), isAbsolute p = true →
      absolutizePath cwd (.str p) (.str r) = .ok (pathNormalize p)) ∧
    (∀ (cwd : String) (v w : JSValue),
      (jsTypeof v ≠ "string" ∨ (jsTypeof w ≠ "string" ∧ w ≠ .undef)) →
      ∃ m, absolutizePath cwd v w = .error (.typeError m)) ∧
    (∀ (cwd p : String),
      absolutizePath cwd (.str p) .undef =
        absolutizePath cwd (.str p) (.str cwd)) := by
  refine ⟨?_, ?_, ?_, ?_⟩
  · intro cwd p r h
    show Except.ok (if isAbsolute p then pathNormalize p else pathJoin r p) =
      Except.ok (pathNormalize (pathJoin r p))
    rw [h, if_neg (by simp), pathJoin_normalize r p]
  · intro cwd p r h
    show Except.ok (if isAbsolute p then pathNormalize p else pathJoin r p) =
      Except.ok (pathNormalize p)
    rw [h, if_pos rfl]
  · intro cwd v w h
    cases v <;> cases w <;>
      first
        | exact ⟨_, rfl⟩
        | (exfalso; rcases h with h | ⟨h, -⟩ <;> exact h rfl)
        | (exfalso
           rcases h with h | ⟨-, h2⟩
           · exact h rfl
           · exact h2 rfl)
  · intro cwd p
    rfl

/-- C7 witness: a relative path joins onto the root, an absolute path is
normalized ignoring the root, a numeric path argument raises the
TypeError, and an `undefined` root behaves as the working directory. -/
theorem absolutizePath_spec_witness :
    absolutizePath "/cwd" (.str "a/b") (.str "/r") =
      .ok (pathNormalize (pathJoin "/r" "a/b")) ∧
    absolutizePath "/cwd" (.str "/x/../y") (.str "r") =
      .ok (pathNormalize "/x/../y") ∧
    (∃ m, absolutizePath "/cwd" (.num 3) (.str "r") = .error (.typeError m)) ∧
    absolutizePath "/cwd" (.str "a") .undef =
      absolutizePath "/cwd" (.str "a") (.str "/cwd") :=
  ⟨absolutizePath_spec.1 "/cwd" "a/b" "/r" rfl,
   absolutizePath_spec.2.1 "/cwd" "/x/../y" "r" rfl,
   absolutizePath_spec.2.2.1 "/cwd" (.num 3) (.str "r") (.inl (by decide)),
   absolutizePath_spec.2.2.2 "/cwd" "a"⟩

/-! ## C10 helper lemmas -/

theorem char_toNat_valid (c : Char) :
    c.toNat < 55296 ∨ (57343 < c.toNat ∧ c.toNat < 1114112) := c.valid

theorem hexVal_hexDigit (n : Nat) (h : n < 16) : hexVal (hexDigit n) = some n := by
  interval_cases n <;> decide

theorem uriTokens_cons_lit (c : Char) (t : List Char) (hc : ¬(c = '%')) :
    uriTokens (c :: t) = (uriTokens t).map (fun ts => .lit c :: ts) := by
  match t with
  | [] => rw [uriTokens.eq_3 c [] (by intro a b r h; simp at h), if_neg hc]
  | [h1] => rw [uriTokens.eq_3 c [h1] (by intro a b r h; simp at h), if_neg hc]
  | h1 :: h2 :: rest2 => rw [uriTokens.eq_2, if_neg hc]

theorem uriTokens_percentByte (b : Nat) (hb : b < 256) (t : List Char) :
    uriTokens (percentByte b ++ t) =
      (uriTokens t).map (fun ts => .byte b :: ts) := by
  have h1 : hexVal (hexDigit (b / 16)) = some (b / 16) :=
    hexVal_hexDigit _ (by omega)
  have h2 : hexVal (hexDigit (b % 16)) = some (b % 16) :=
    hexVal_hexDigit _ (by omega)
  show uriTokens ('%' :: hexDigit (b / 16) :: hexDigit (b % 16) :: t) = _
  rw [uriTokens.eq_2, if_pos rfl, h1, h2]
  dsimp only
  have heq : 16 * (b / 16) + b % 16 = b := by omega
  rw [heq]

theorem uriTokens_encodeChar (c : Char) (t : List Char) :
    uriTokens (encodeChar c ++ t) =
      (uriTokens t).map (fun ts => charTokens c ++ ts) := by
  by_cases hu : isUriUnreserved c = true
  · rw [encodeChar, if_pos hu, charTokens, if_pos hu]
    have hc : ¬(c = '%') := by
      intro hcontra
      subst hcontra
      simp [isUriUnreserved] at hu
    rw [List.singleton_append, uriTokens_cons_lit c t hc]
    rfl
  · rw [encodeChar, if_neg hu, charTokens, if_neg hu]
    have hlt : c.toNat < 1114112 := by
      rcases char_toNat_valid c with h | ⟨-, h⟩ <;> omega
    rw [utf8Bytes]
    by_cases h1 : c.toNat < 128
    · rw [if_pos h1]
      show uriTokens (percentByte c.toNat ++ t) = _
      rw [uriTokens_percentByte _ (by omega)]
      rfl
    · rw [if_neg h1]
      by_cases h2 : c.toNat < 2048
      · rw [if_pos h2]
        show uriTokens (percentByte (192 + c.toNat / 64) ++
          (percentByte (128 + c.toNat % 64) ++ t)) = _
        rw [uriTokens_percentByte _ (by omega),
          uriTokens_percentByte _ (by omega), Option.map_map]
        rfl
      · rw [if_neg h2]
        by_cases h3 : c.toNat < 65536
        · rw [if_pos h3]
          show uriTokens (percentByte (224 + c.toNat / 4096) ++
            (percentByte (128 + c.toNat / 64 % 64) ++
              (percentByte (128 + c.toNat % 64) ++ t))) = _
          rw [uriTokens_percentByte _ (by omega),
            uriTokens_percentByte _ (by omega),
            uriTokens_percentByte _ (by omega),
            Option.map_map, Option.map_map]
          rfl
        · rw [if_neg h3]
          show uriTokens (percentByte (240 + c.toNat / 262144) ++
            (percentByte (128 + c.toNat / 4096 % 64) ++
              (percentByte (128 + c.toNat / 64 % 64) ++
                (percentByte (128 + c.toNat % 64) ++ t)))) = _
          rw [uriTokens_percentByte _ (by omega),
            uriTokens_percentByte _ (by omega),
            uriTokens_percentByte _ (by omega),
            uriTokens_percentByte _ (by omega),
            Option.map_map, Option.map_map, Option.map_map]
          rfl

theorem uriTokens_encode (s : List Char) :
    uriTokens (encodeURIComponentChars s) = some (s.flatMap charTokens) := by
  induction s with
  | nil => rfl
  | cons c rest ih =>
    show uriTokens (encodeChar c ++ encodeURIComponentChars rest) = _
    rw [uriTokens_encodeChar, ih]
    rfl

theorem decode2_encode (n : Nat) (h1 : 128 ≤ n) (h2 : n < 2048)
    (ts : List UriToken) :
    decode2 (192 + n / 64) (.byte (128 + n % 64) :: ts) = some (n, ts) := by
  unfold decode2
  dsimp only
  rw [if_pos (by omega), if_pos (by omega)]
  have heq : (192 + n / 64 - 192) * 64 + (128 + n % 64 - 128) = n := by omega
  rw [heq]

theorem decode3_encode (n : Nat) (h1 : 2048 ≤ n) (h2 : n < 65536)
    (h3 : ¬(55296 ≤ n ∧ n < 57344)) (ts : List UriToken) :
    decode3 (224 + n / 4096) (.byte (128 + n / 64 % 64) :: .byte (128 + n % 64) :: ts) =
      some (n, ts) := by
  unfold decode3
  dsimp only
  have heq : (224 + n / 4096 - 224) * 4096 + (128 + n / 64 % 64 - 128) * 64 +
      (128 + n % 64 - 128) = n := by omega
  rw [if_pos (by omega), heq, if_pos (by exact ⟨h1, h3⟩)]

theorem decode4_encode (n : Nat) (h1 : 65536 ≤ n) (h2 : n < 1114112)
    (ts : List UriToken) :
    decode4 (240 + n / 262144)
      (.byte (128 + n / 4096 % 64) :: .byte (128 + n / 64 % 64) ::
        .byte (128 + n % 64) :: ts) = some (n, ts) := by
  unfold decode4
  dsimp only
  have heq : (240 + n / 262144 - 240) * 262144 + (128 + n / 4096 % 64 - 128) * 4096 +
      (128 + n / 64 % 64 - 128) * 64 + (128 + n % 64 - 128) = n := by omega
  rw [if_pos (by omega), heq, if_pos (by exact ⟨h1, h2⟩)]

theorem uriFromTokens_charTokens (c : Char) (ts : List UriToken) :
    uriFromTokens (charTokens c ++ ts) = (uriFromTokens ts).map (c :: ·) := by
  by_cases hu : isUriUnreserved c = true
  · rw [charTokens, if_pos hu]
    show uriFromTokens (.lit c :: ts) = _
    rw [uriFromTokens.eq_2]
  · rw [charTokens, if_neg hu]
    have hval := char_toNat_valid c
    rw [utf8Bytes]
    by_cases hlt1 : c.toNat < 128
    · rw [if_pos hlt1]
      show uriFromTokens (.byte c.toNat :: ts) = _
      rw [uriFromTokens.eq_3, if_pos hlt1, Char.ofNat_toNat]
    · rw [if_neg hlt1]
      by_cases hlt2 : c.toNat < 2048
      · rw [if_pos hlt2]
        show uriFromTokens (.byte (192 + c.toNat / 64) ::
          .byte (128 + c.toNat % 64) :: ts) = _
        rw [uriFromTokens.eq_3, if_neg (by omega), if_neg (by omega),
          if_pos (by omega)]
        split
        · rename_i n2 ts2 hdec
          rw [decode2_encode c.toNat (by omega) hlt2 ts] at hdec
          injection hdec with h
          injection h with hA hB
          subst hA
          subst hB
          rw [Char.ofNat_toNat]
        · rename_i hdec
          rw [decode2_encode c.toNat (by omega) hlt2 ts] at hdec
          cases hdec
      · rw [if_neg hlt2]
        by_cases hlt3 : c.toNat < 65536
        · rw [if_pos hlt3]
          have hsur : ¬(55296 ≤ c.toNat ∧ c.toNat < 57344) := by
            rcases hval with h | ⟨h, -⟩ <;> omega
          show uriFromTokens (.byte (224 + c.toNat / 4096) ::
            .byte (128 + c.toNat / 64 % 64) :: .byte (128 + c.toNat % 64) :: ts) = _
          rw [uriFromTokens.eq_3, if_neg (by omega), if_neg (by omega),
            if_neg (by omega), if_pos (by omega)]
          split
          · rename_i n2 ts2 hdec
            rw [decode3_encode c.toNat (by omega) hlt3 hsur ts] at hdec
            injection hdec with h
            injection h with hA hB
            subst hA
            subst hB
            rw [Char.ofNat_toNat]
          · rename_i hdec
            rw [decode3_encode c.toNat (by omega) hlt3 hsur ts] at hdec
            cases hdec
        · rw [if_neg hlt3]
          have hhi : c.toNat < 1114112 := by
            rcases hval with h | ⟨-, h⟩ <;> omega
          show uriFromTokens (.byte (240 + c.toNat / 262144) ::
            .byte (128 + c.toNat / 4096 % 64) :: .byte (128 + c.toNat / 64 % 64) ::
            .byte (128 + c.toNat % 64) :: ts) = _
          rw [uriFromTokens.eq_3, if_neg (by omega), if_neg (by omega),
            if_neg (by omega), if_neg (by omega), if_pos (by omega)]
          split
          · rename_i n2 ts2 hdec
            rw [decode4_encode c.toNat (by omega) hhi ts] at hdec
            injection hdec with h
            injection h with hA hB
            subst hA
            subst hB
            rw [Char.ofNat_toNat]
          · rename_i hdec
            rw [decode4_encode c.toNat (by omega) hhi ts] at hdec
            cases hdec

theorem uriFromTokens_flatMap (s : List Char) :
    uriFromTokens (s.flatMap charTokens) = some s := by
  induction s with
  | nil =>
    show uriFromTokens [] = some []
    exact uriFromTokens.eq_1
  | cons c rest ih =>
    show uriFromTokens (charTokens c ++ rest.flatMap charTokens) = _
    rw [uriFromTokens_charTokens, ih]
    rfl

/-! ## C10 -/

/-- C10: For every string `html`, `encodeHTML html` is exactly
`"data:text/html,"` followed by `encodeURIComponent html` — so it always
starts with that prefix — and applying `decodeURIComponent` to the
remainder recovers `html` exactly (the percent-encoding round-trips). -/
theorem encodeHTML_spec (html : String) :
    encodeHTML html = "data:text/html," ++ encodeURIComponentStr html ∧
    ∃ rest, encodeHTML html = "data:text/html," ++ rest ∧
      decodeURIComponentStr rest = some html := by
  refine ⟨rfl, encodeURIComponentStr html, rfl, ?_⟩
  show ((uriTokens (encodeURIComponentChars html.data)).bind uriFromTokens).map
    (fun l => (⟨l⟩ : String)) = some html
  rw [uriTokens_encode html.data]
  show (uriFromTokens (html.data.flatMap charTokens)).map
    (fun l => (⟨l⟩ : String)) = some html
  rw [uriFromTokens_flatMap html.data]
  rfl
